import Mathlib

/-!
# Verification of the tradekit scoring / level / screening pipeline

Shallow embedding of the core pure logic of the `tradekit` package
(`src/tradekit/analysis/scoring.py`, `analysis/levels.py`,
`analysis/indicators.py`, `screener/filters.py`, `screener/ranking.py`,
`data/massive.py`).  Python floats are modelled as rationals (`ℚ`); a
pandas cell, which can be a proper value, `NaN`, or absent from the row,
is modelled by the `Cell` type; `round(x, n)` is Python's round-half-to-even
on `n` decimal digits, modelled exactly by `roundTo`.
-/

namespace Tradekit

/-- Round-half-to-even on integers (Python's `round` semantics for the
final rounding step), expressed on a rational argument. -/
def roundHE (x : ℚ) : ℤ :=
  if x - ⌊x⌋ < 1/2 then ⌊x⌋
  else if 1/2 < x - ⌊x⌋ then ⌊x⌋ + 1
  else if Even ⌊x⌋ then ⌊x⌋ else ⌊x⌋ + 1

/-- Python's `round(x, d)`: round half to even at `d` decimal digits. -/
def roundTo (d : ℕ) (x : ℚ) : ℚ :=
  (roundHE (x * 10 ^ d) : ℚ) / 10 ^ d

/-- A pandas `Series` cell as seen through `row.get`: the key can be
absent, hold `NaN`, or hold a numeric value. -/
inductive Cell where
  | absent : Cell
  | nan : Cell
  | val : ℚ → Cell
deriving DecidableEq

/-- `row.get(key, default)` followed by the `pd.notna` gate: returns
`some v` when the gated value is a usable number, `none` when the branch
body is skipped (value is `NaN`). An absent key yields the default. -/
def Cell.getyD (c : Cell) (d : ℚ) : Option ℚ :=
  match c with
  | .absent => some d
  | .nan => none
  | .val q => some q

/-- `row.get(key)` (no default) followed by `pd.notna`: `some v` only
when the key is present with a numeric value. -/
def Cell.gety : Cell → Option ℚ
  | .absent => none
  | .nan => none
  | .val q => some q

/-- Python truthiness of `row.get("close", 0)`: an absent key gives `0`
(falsy); `NaN` is truthy; a number is truthy iff nonzero. -/
def Cell.truthy0 : Cell → Bool
  | .absent => false
  | .nan => true
  | .val q => q != 0

/-- An indicator row (`pd.Series`) restricted to the keys read by the
scoring functions in `analysis/scoring.py`. -/
structure Row where
  rsi : Cell := .absent
  macd_histogram : Cell := .absent
  stoch_k : Cell := .absent
  stoch_d : Cell := .absent
  roc_10 : Cell := .absent
  close : Cell := .absent
  ema_9 : Cell := .absent
  ema_20 : Cell := .absent
  sma_50 : Cell := .absent
  sma_200 : Cell := .absent
  relative_volume : Cell := .absent
  vwap : Cell := .absent
deriving DecidableEq

/-- `score_momentum` (scoring.py lines 6-54). -/
def score_momentum (row : Row) : ℚ :=
  let s0 : ℚ := 50
  let s1 :=
    match row.rsi.getyD 50 with
    | none => s0
    | some rsi =>
      if 40 ≤ rsi ∧ rsi ≤ 60 then s0 + 15
      else if 30 ≤ rsi ∧ rsi < 40 then s0 + 20
      else if rsi < 30 then s0 + 10
      else if 60 < rsi ∧ rsi ≤ 70 then s0 + 10
      else if 70 < rsi then s0 - 10
      else s0
  let s2 :=
    match row.macd_histogram.getyD 0 with
    | none => s1
    | some hist => if 0 < hist then s1 + 15 else s1 - 10
  let s3 :=
    match row.stoch_k.getyD 50, row.stoch_d.getyD 50 with
    | some k, some d =>
      if d < k ∧ k < 80 then s2 + 10
      else if k < d ∧ 20 < k then s2 - 5
      else s2
    | _, _ => s2
  let s4 :=
    match row.roc_10.getyD 0 with
    | none => s3
    | some roc =>
      if 5 < roc then s3 + 10
      else if 0 < roc then s3 + 5
      else if roc < -5 then s3 - 10
      else s3
  max 0 (min 100 s4)

/-- One iteration of the moving-average loop in `score_trend`
(scoring.py lines 68-74). -/
def trendMAStep (close : ℚ) (ma : Cell) (s : ℚ) : ℚ :=
  match ma.gety with
  | none => s
  | some m => if 0 < m then (if m < close then s + 5 else s - 5) else s

/-- `score_trend` (scoring.py lines 57-86).  `row.get("close", 0)` that
is falsy or `NaN` returns the neutral baseline immediately. -/
def score_trend (row : Row) : ℚ :=
  match row.close with
  | .absent => 50
  | .nan => 50
  | .val close =>
    if close = 0 then 50
    else
      let s0 : ℚ := 50
      let s1 := trendMAStep close row.ema_9 s0
      let s2 := trendMAStep close row.ema_20 s1
      let s3 := trendMAStep close row.sma_50 s2
      let s4 := trendMAStep close row.sma_200 s3
      let s5 :=
        match row.ema_9.gety, row.ema_20.gety, row.sma_50.gety with
        | some e9, some e20, some s50 =>
          if e20 < e9 ∧ s50 < e20 then s4 + 15
          else if e9 < e20 ∧ e20 < s50 then s4 - 10
          else s4
        | _, _, _ => s4
      max 0 (min 100 s5)

/-- `score_volume` (scoring.py lines 89-117).  In the VWAP comparison a
`NaN` close passes Python's truthiness gate but compares false, so it
takes the `else` branch. -/
def score_volume (row : Row) : ℚ :=
  let s0 : ℚ := 50
  let s1 :=
    match row.relative_volume.gety with
    | none => s0
    | some rvol =>
      if 3 < rvol then s0 + 25
      else if 2 < rvol then s0 + 20
      else if 3/2 < rvol then s0 + 10
      else if rvol < 1/2 then s0 - 15
      else s0
  let s2 :=
    match row.vwap.gety with
    | none => s1
    | some vwap =>
      if 0 < vwap ∧ row.close.truthy0 then
        match row.close with
        | .val c => if vwap < c then s1 + 10 else s1 - 5
        | _ => s1 - 5
      else s1
  max 0 (min 100 s2)

/-- The `weights` dict: each key may be missing, in which case
`weights.get(key, default)` falls back to the default. -/
structure WeightsDict where
  momentum : Option ℚ := none
  trend : Option ℚ := none
  volume : Option ℚ := none
deriving DecidableEq

/-- The score dict returned by `compute_composite_score`. -/
structure Score where
  total : ℚ
  momentum : ℚ
  trend : ℚ
  volume : ℚ
  grade : String
deriving DecidableEq

/-- The grade ladder of `compute_composite_score` (scoring.py lines
146-154): A (80+), B (65-79), C (50-64), F (below 50). -/
def gradeOf (total : ℚ) : String :=
  if 80 ≤ total then "A"
  else if 65 ≤ total then "B"
  else if 50 ≤ total then "C"
  else "F"

/-- The three weights actually used by `compute_composite_score`:
`weights or the default dict`, then `weights.get(key, default)` per key
(momentum, trend, volume in this order). -/
def resolvedWeights (weights : Option WeightsDict) : ℚ × ℚ × ℚ :=
  let w := weights.getD ⟨some 0.35, some 0.35, some 0.30⟩
  (w.momentum.getD 0.35, w.trend.getD 0.35, w.volume.getD 0.30)

/-- `compute_composite_score` (scoring.py lines 120-162): weighted sum of
the three sub-scores, rounded to one decimal, and graded through the
fixed thresholds 80 / 65 / 50. -/
def compute_composite_score (row : Row) (weights : Option WeightsDict) : Score :=
  let w := weights.getD ⟨some 0.35, some 0.35, some 0.30⟩
  let momentum := score_momentum row
  let trend := score_trend row
  let volume := score_volume row
  let total0 :=
    momentum * w.momentum.getD 0.35
      + trend * w.trend.getD 0.35
      + volume * w.volume.getD 0.30
  let total := roundTo 1 total0
  { total := total
    momentum := roundTo 1 momentum
    trend := roundTo 1 trend
    volume := roundTo 1 volume
    grade := gradeOf total }

/-! ## Support / resistance levels (`analysis/levels.py`) -/

/-- The unrounded pivot of `compute_pivot_points` (levels.py line 12). -/
def pivotRaw (high low close : ℚ) : ℚ := (high + low + close) / 3

/-- The unrounded `r1` (levels.py line 13). -/
def r1Raw (high low close : ℚ) : ℚ := 2 * pivotRaw high low close - low

/-- The unrounded `s1` (levels.py line 14). -/
def s1Raw (high low close : ℚ) : ℚ := 2 * pivotRaw high low close - high

/-- The dict returned by `compute_pivot_points`. -/
structure PivotPoints where
  pivot : ℚ
  r1 : ℚ
  r2 : ℚ
  r3 : ℚ
  s1 : ℚ
  s2 : ℚ
  s3 : ℚ
deriving DecidableEq

/-- `compute_pivot_points` (levels.py lines 7-28): standard pivots from
prior-period high/low/close, every value rounded to two decimals. -/
def compute_pivot_points (high low close : ℚ) : PivotPoints :=
  let pivot := pivotRaw high low close
  { pivot := roundTo 2 pivot
    r1 := roundTo 2 (r1Raw high low close)
    r2 := roundTo 2 (pivot + (high - low))
    r3 := roundTo 2 (high + 2 * (pivot - low))
    s1 := roundTo 2 (s1Raw high low close)
    s2 := roundTo 2 (pivot - (high - low))
    s3 := roundTo 2 (low - 2 * (high - pivot)) }

/-- A clustered level zone: `level` (mean) and `strength` (member count). -/
structure LevelZone where
  level : ℚ
  strength : ℕ
deriving DecidableEq

/-- The loop of `cluster_levels` (levels.py lines 76-82).  The current
cluster is carried with its most recently appended element at the head;
a finished cluster is reversed back into ascending order. -/
def clusterGo (tol : ℚ) : List ℚ → List ℚ → List (List ℚ)
  | cur, [] => [cur.reverse]
  | cur, price :: rest =>
    if |price - cur.headI| / cur.headI * 100 ≤ tol then
      clusterGo tol (price :: cur) rest
    else
      cur.reverse :: clusterGo tol [price] rest

/-- `cluster_levels` (levels.py lines 57-90): sort, group consecutive
levels whose distance to the last element of the current cluster is
within `tol` percent, then report each cluster's rounded mean and size. -/
def cluster_levels (levels : List ℚ) (tol : ℚ) : List LevelZone :=
  match levels.insertionSort (· ≤ ·) with
  | [] => []
  | first :: rest =>
    (clusterGo tol [first] rest).map fun c =>
      { level := roundTo 2 (c.sum / c.length), strength := c.length }

/-- The clustering loop as the spec words it: a new element joins the
current cluster when it is within `tol` percent of the last element
already placed, i.e. `|price - last| ≤ last * tol / 100`. -/
def clusterGoSpec (tol : ℚ) : List ℚ → List ℚ → List (List ℚ)
  | cur, [] => [cur.reverse]
  | cur, price :: rest =>
    if |price - cur.headI| ≤ cur.headI * tol / 100 then
      clusterGoSpec tol (price :: cur) rest
    else
      cur.reverse :: clusterGoSpec tol [price] rest

/-- `cluster_levels` as described by the spec: sort ascending, partition
into maximal consecutive runs in which each price is within the
tolerance percentage of the last element already placed in the current
cluster, and report the rounded arithmetic mean and the member count. -/
def cluster_levels_spec (levels : List ℚ) (tol : ℚ) : List LevelZone :=
  match levels.insertionSort (· ≤ ·) with
  | [] => []
  | first :: rest =>
    (clusterGoSpec tol [first] rest).map fun c =>
      { level := roundTo 2 (c.sum / c.length), strength := c.length }

/-! ## Screener filters (`screener/filters.py`)

A pandas `DataFrame` is modelled as a column list plus a row list; a row
is an association list from column name to value.  A cell that is `NaN`
is modelled by the key being absent from the row: every comparison
against it is false, exactly as a `NaN` comparison in pandas. -/

/-- One DataFrame row: column name to numeric value. -/
def DFRow := List (String × ℚ)
deriving DecidableEq

/-- Value of a row at a column, if present and non-NaN. -/
def DFRow.cell (r : DFRow) (c : String) : Option ℚ :=
  (List.find? (fun p => p.1 == c) r).map (fun p => p.2)

/-- A DataFrame: its column labels and its rows, in order. -/
structure DataFrame where
  cols : List String
  rows : List DFRow
deriving DecidableEq

/-- `df.empty` for our DataFrames (row-emptiness, which is what the
screener's filters and break condition observe). -/
def DataFrame.isEmpty (df : DataFrame) : Bool := df.rows.isEmpty

/-- The filter constructors of `screener/filters.py`, with the arguments
their closures capture. `float("inf")` bounds are modelled by `Option ℚ`
(`none` = unbounded), matching the only ways the defaults are used. -/
inductive FilterSpec where
  | price (min_price : ℚ) (max_price : Option ℚ)
  | volume (min_volume : ℚ) (column : String)
  | gap (min_gap_pct : ℚ)
  | avgVolume (min_avg_volume : ℚ)
  | floatShares (max_float_millions : Option ℚ)
deriving DecidableEq

/-- The column a filter will test on a frame with columns `cols`:
`price_filter` prefers `pre_price` over `price` (filters.py line 14) and
is the identity when neither exists; every other filter is the identity
when its fixed column is missing. -/
def FilterSpec.activeCol : FilterSpec → List String → Option String
  | .price _ _, cols =>
    let col := if "pre_price" ∈ cols then "pre_price" else "price"
    if col ∈ cols then some col else none
  | .volume _ column, cols => if column ∈ cols then some column else none
  | .gap _, cols => if "gap_pct" ∈ cols then some "gap_pct" else none
  | .avgVolume _, cols => if "avg_volume" ∈ cols then some "avg_volume" else none
  | .floatShares _, cols => if "float_shares" ∈ cols then some "float_shares" else none

/-- The row predicate of a filter once its active column `c` is fixed.
A missing cell (`NaN`) fails every comparison, as in pandas. -/
def FilterSpec.pred : FilterSpec → String → DFRow → Bool
  | .price mn mx, c, r =>
    match r.cell c with
    | none => false
    | some v => decide (mn ≤ v) && (match mx with | none => true | some m => decide (v ≤ m))
  | .volume mn _, c, r =>
    match r.cell c with
    | none => false
    | some v => decide (mn ≤ v)
  | .gap mg, c, r =>
    match r.cell c with
    | none => false
    | some v => decide (mg ≤ |v|)
  | .avgVolume mn, c, r =>
    match r.cell c with
    | none => false
    | some v => decide (mn ≤ v)
  | .floatShares mx, c, r =>
    match r.cell c with
    | none => false
    | some v => match mx with | none => true | some m => decide (v ≤ m * 1000000)

/-- Running one filter closure on a DataFrame: identity when the tested
column is absent, otherwise a boolean row selection `df[mask]`. -/
def runFilter (f : FilterSpec) (df : DataFrame) : DataFrame :=
  match f.activeCol df.cols with
  | none => df
  | some c => { cols := df.cols, rows := df.rows.filter (f.pred c) }

/-- The columns a filter's predicate can touch, used to state
disjointness of two filters. -/
def FilterSpec.touched : FilterSpec → List String
  | .price _ _ => ["pre_price", "price"]
  | .volume _ column => [column]
  | .gap _ => ["gap_pct"]
  | .avgVolume _ => ["avg_volume"]
  | .floatShares _ => ["float_shares"]

/-- `apply_filters` (filters.py lines 66-73): sequential application with
an early break as soon as the intermediate result has no rows. -/
def apply_filters (df : DataFrame) : List FilterSpec → DataFrame
  | [] => df
  | f :: fs =>
    let result := runFilter f df
    if result.isEmpty then result else apply_filters result fs

/-! ## RSI (`analysis/indicators.py` line 9-11)

`compute_rsi` delegates to the external `ta` library's `RSIIndicator`,
which is not part of this repository. -/

/-- First differences of a series (`close.diff(1)` without its leading
`NaN`, which `where` turns into `0` in both direction series). -/
def diffs : List ℚ → List ℚ
  | [] => []
  | [_] => []
  | a :: b :: rest => (b - a) :: diffs (b :: rest)

/-- One RSI value from a smoothed average gain `u` and average loss `d`:
`100 - 100/(1+u/d)`, and `100` when the average loss is zero (the limit
the float computation reaches through `rs = inf`). -/
def rsiVal (u d : ℚ) : ℚ :=
  if d = 0 then 100 else 100 - 100 / (1 + u / d)

/-- Wilder smoothing of gains and losses along the diff list
(`ewm(alpha=1/period, adjust=False)` on the up/down direction series),
emitting the RSI value at each step. -/
def rsiGo (a : ℚ) (u d : ℚ) : List ℚ → List ℚ
  | [] => []
  | x :: xs =>
    let gain := if 0 < x then x else 0
    let loss := if x < 0 then -x else 0
    let u2 := a * gain + (1 - a) * u
    let d2 := a * loss + (1 - a) * d
    rsiVal u2 d2 :: rsiGo a u2 d2 xs

/-- Modelled from the spec: `compute_rsi` wraps `ta.momentum.RSIIndicator`,
whose source is not in this repository.  Wilder-smoothed average gain and
loss over the close-to-close differences (the leading diff is zeroed by
the `where` masks), `rsi = 100 - 100/(1+rs)`, `100` where the average
loss is zero.  `min_periods` masking only erases leading values to `NaN`
and is not modelled: the list holds every value the pipeline computes. -/
def compute_rsi (closes : List ℚ) (period : ℕ) : List ℚ :=
  match closes with
  | [] => []
  | _ :: _ => rsiVal 0 0 :: rsiGo (1 / (period : ℚ)) 0 0 (diffs closes)

/-! ## Massive provider (`data/massive.py`) -/

/-- The message of the `ValueError` raised by `MassiveProvider.__init__`. -/
def massiveKeyError : String :=
  "MASSIVE_API_KEY is required. Set it in .env or as an environment variable."

/-- `MassiveProvider.__init__` (massive.py lines 49-56): the API key is
the settings value if truthy, else the `MASSIVE_API_KEY` environment
variable (defaulting to `""`); an empty key raises `ValueError`. On
success the established key is returned. -/
def massiveInit (settingsKey envKey : String) : Except String String :=
  let apiKey := if settingsKey ≠ "" then settingsKey else envKey
  if apiKey = "" then Except.error massiveKeyError else Except.ok apiKey

/-- One aggregate bar of a Massive `list_aggs` response; each JSON key
may be absent (`none`). -/
structure AggBar where
  o : Option ℚ := none
  h : Option ℚ := none
  l : Option ℚ := none
  c : Option ℚ := none
  v : Option ℚ := none
  t : Option ℚ := none
  vw : Option ℚ := none
  n : Option ℚ := none
deriving DecidableEq

/-- The bar's value under the renamed OHLCV column names
(`rename = {o: open, h: high, l: low, c: close, v: volume}`). -/
def AggBar.field (b : AggBar) : String → Option ℚ
  | "open" => b.o
  | "high" => b.h
  | "low" => b.l
  | "close" => b.c
  | "volume" => b.v
  | _ => none

/-- `MassiveProvider.get_history` from the point the parsed response is
in hand (massive.py lines 160-177): `data.get("results", [])`; with no
bars an empty DataFrame is returned, otherwise the bars become rows, the
`t` column moves into the index, and only the OHLCV columns that exist
are kept (a column exists when some record carries the key). -/
def massiveGetHistory (response : Option (List AggBar)) : DataFrame :=
  let bars := response.getD []
  match bars with
  | [] => { cols := [], rows := [] }
  | _ =>
    let keep := ["open", "high", "low", "close", "volume"].filter
      fun col => bars.any fun b => (b.field col).isSome
    { cols := keep
      rows := bars.map fun b =>
        (keep.filterMap fun col => (b.field col).map fun q => (col, q) : DFRow) }

/-! ## Ranking (`screener/ranking.py`) -/

/-- A quote dict as produced by a provider's `get_quote`; `none` models
an absent key, read through `.get(key, default)`. -/
structure Quote where
  name : Option String := none
  price : Option ℚ := none
  volume : Option ℚ := none
  avg_volume : Option ℚ := none

/-- A data provider: `get_history` and `get_quote`, each of which may
raise (`Except.error`), caught per ticker by `rank_candidates`. -/
structure Provider where
  getHistory : String → Except String DataFrame
  getQuote : String → Except String Quote

/-- One result row of `rank_candidates`.  The `volume` key of the
literal dict (`quote.get("volume", 0)`) is overwritten by the spread of
the score dict, so the surviving `volume` is the volume sub-score. -/
structure RankedRow where
  ticker : String
  name : String
  price : ℚ
  avg_volume : ℚ
  total : ℚ
  momentum : ℚ
  trend : ℚ
  volume : ℚ
  grade : String
deriving DecidableEq

/-- The body of the per-ticker `try` in `rank_candidates` (ranking.py
lines 42-63): `none` when the ticker is skipped (an exception anywhere
in the block, or an empty / shorter-than-20-row history).  `enrich`
stands for `compute_all_indicators` + `add_volume_indicators` +
`df.iloc[-1]`, which depend on the external `ta` library. -/
def rankOne (provider : Provider) (enrich : DataFrame → Except String Row)
    (weights : Option WeightsDict) (ticker : String) : Option RankedRow :=
  match provider.getHistory ticker with
  | .error _ => none
  | .ok df =>
    if df.isEmpty || df.rows.length < 20 then none
    else
      match enrich df with
      | .error _ => none
      | .ok latest =>
        let score := compute_composite_score latest weights
        match provider.getQuote ticker with
        | .error _ => none
        | .ok quote =>
          some { ticker := ticker
                 name := quote.name.getD ticker
                 price := quote.price.getD
                   (match latest.close with | Cell.val q => q | _ => 0)
                 avg_volume := quote.avg_volume.getD 0
                 total := score.total
                 momentum := score.momentum
                 trend := score.trend
                 volume := score.volume
                 grade := score.grade }

/-- The ticker loop of `rank_candidates`: skipped tickers contribute
nothing, in order. -/
def rankLoop (provider : Provider) (enrich : DataFrame → Except String Row)
    (weights : Option WeightsDict) : List String → List RankedRow
  | [] => []
  | t :: ts =>
    match rankOne provider enrich weights t with
    | none => rankLoop provider enrich weights ts
    | some r => r :: rankLoop provider enrich weights ts

/-- `rank_candidates` (ranking.py lines 21-72): build one result row per
ticker that survives its `try` block; with no results return an empty
DataFrame (here: the empty row list), otherwise sort by `total`
descending. -/
def rank_candidates (provider : Provider) (enrich : DataFrame → Except String Row)
    (tickers : List String) (weights : Option WeightsDict) : List RankedRow :=
  let results := rankLoop provider enrich weights tickers
  match results with
  | [] => []
  | _ => results.insertionSort (fun a b => b.total ≤ a.total)

/-- "The ticker yields no usable history": fetching throws, or the frame
has fewer than 20 rows (which subsumes emptiness). -/
def historyUnusable (provider : Provider) (ticker : String) : Prop :=
  match provider.getHistory ticker with
  | .error _ => True
  | .ok df => df.rows.length < 20

/-! ## Helper lemmas -/

theorem roundHE_le_floor_add_one (x : ℚ) : roundHE x ≤ ⌊x⌋ + 1 := by
  unfold roundHE
  split_ifs <;> omega

theorem floor_le_roundHE (x : ℚ) : ⌊x⌋ ≤ roundHE x := by
  unfold roundHE
  split_ifs <;> omega

theorem roundHE_mono {x y : ℚ} (h : x ≤ y) : roundHE x ≤ roundHE y := by
  rcases lt_or_le ⌊x⌋ ⌊y⌋ with hlt | hle
  · have h1 := roundHE_le_floor_add_one x
    have h2 := floor_le_roundHE y
    omega
  · have heq : ⌊x⌋ = ⌊y⌋ := le_antisymm (Int.floor_mono h) hle
    unfold roundHE
    rw [← heq]
    split_ifs <;> first | omega | (exfalso; linarith)

theorem roundHE_intCast (n : ℤ) : roundHE (n : ℚ) = n := by
  unfold roundHE
  rw [Int.floor_intCast]
  norm_num

theorem roundTo_mono (d : ℕ) {x y : ℚ} (h : x ≤ y) : roundTo d x ≤ roundTo d y := by
  unfold roundTo
  have h10 : (0 : ℚ) < 10 ^ d := by positivity
  rw [div_le_div_iff_of_pos_right h10]
  exact_mod_cast roundHE_mono (mul_le_mul_of_nonneg_right h h10.le)

theorem roundTo_intCast (d : ℕ) (n : ℤ) : roundTo d (n : ℚ) = (n : ℚ) := by
  unfold roundTo
  have h : ((n : ℚ)) * 10 ^ d = ((n * 10 ^ d : ℤ) : ℚ) := by push_cast; ring
  rw [h, roundHE_intCast]
  have h10 : (10 : ℚ) ^ d ≠ 0 := by positivity
  push_cast
  field_simp

theorem clamp_bounds (s : ℚ) : 0 ≤ max 0 (min 100 s) ∧ max 0 (min 100 s) ≤ 100 := by
  constructor
  · exact le_max_left 0 _
  · exact max_le (by norm_num) (min_le_left _ _)

theorem score_momentum_bounds (row : Row) :
    0 ≤ score_momentum row ∧ score_momentum row ≤ 100 := by
  unfold score_momentum
  exact clamp_bounds _

theorem score_trend_bounds (row : Row) :
    0 ≤ score_trend row ∧ score_trend row ≤ 100 := by
  unfold score_trend
  cases row.close with
  | absent => norm_num
  | nan => norm_num
  | val c =>
    by_cases hc : c = 0
    · norm_num [hc]
    · simp only [hc, if_false]
      exact clamp_bounds _

theorem score_volume_bounds (row : Row) :
    0 ≤ score_volume row ∧ score_volume row ≤ 100 := by
  unfold score_volume
  exact clamp_bounds _

theorem composite_total_def (row : Row) (w : Option WeightsDict) :
    (compute_composite_score row w).total =
      roundTo 1 (score_momentum row * (resolvedWeights w).1
        + score_trend row * (resolvedWeights w).2.1
        + score_volume row * (resolvedWeights w).2.2) := rfl

theorem composite_grade_def (row : Row) (w : Option WeightsDict) :
    (compute_composite_score row w).grade = gradeOf (compute_composite_score row w).total := rfl

theorem gradeOf_spec (t : ℚ) :
    (gradeOf t = "A" ↔ 80 ≤ t) ∧
    (gradeOf t = "B" ↔ 65 ≤ t ∧ t < 80) ∧
    (gradeOf t = "C" ↔ 50 ≤ t ∧ t < 65) ∧
    (gradeOf t = "F" ↔ t < 50) := by
  unfold gradeOf
  split_ifs with h1 h2 h3 <;> push_neg at * <;>
    refine ⟨?_, ?_, ?_, ?_⟩ <;> constructor <;> intro h <;>
    first
      | rfl
      | linarith
      | (exact ⟨by linarith, by linarith⟩)
      | (exfalso; linarith [h.1, h.2])
      | (exfalso; linarith)
      | (exfalso; simp_all)

theorem DataFrame.eq_of_parts {d1 d2 : DataFrame} (h1 : d1.cols = d2.cols)
    (h2 : d1.rows = d2.rows) : d1 = d2 := by
  cases d1
  cases d2
  simp_all

theorem runFilter_cols (f : FilterSpec) (df : DataFrame) :
    (runFilter f df).cols = df.cols := by
  unfold runFilter
  cases f.activeCol df.cols <;> rfl

theorem runFilter_rows_sublist (f : FilterSpec) (df : DataFrame) :
    (runFilter f df).rows.Sublist df.rows := by
  unfold runFilter
  cases f.activeCol df.cols with
  | none => exact List.Sublist.refl _
  | some c => exact List.filter_sublist df.rows

theorem runFilter_empty_rows (f : FilterSpec) (df : DataFrame) (h : df.rows = []) :
    runFilter f df = df := by
  unfold runFilter
  cases hc : f.activeCol df.cols with
  | none => rfl
  | some c => exact DataFrame.eq_of_parts rfl (by rw [h]; rfl)

theorem runFilter_comm (f g : FilterSpec) (df : DataFrame) :
    runFilter f (runFilter g df) = runFilter g (runFilter f df) := by
  have hfc := runFilter_cols f df
  have hgc := runFilter_cols g df
  cases hf : f.activeCol df.cols with
  | none =>
    have idf : ∀ X : DataFrame, X.cols = df.cols → runFilter f X = X := by
      intro X hX
      unfold runFilter
      rw [hX, hf]
    rw [idf (runFilter g df) hgc, idf df rfl]
  | some c =>
    cases hg : g.activeCol df.cols with
    | none =>
      have idg : ∀ X : DataFrame, X.cols = df.cols → runFilter g X = X := by
        intro X hX
        unfold runFilter
        rw [hX, hg]
      rw [idg df rfl, idg (runFilter f df) hfc]
    | some c2 =>
      have e1 : runFilter f df = ⟨df.cols, df.rows.filter (f.pred c)⟩ := by
        unfold runFilter
        rw [hf]
      have e2 : runFilter g df = ⟨df.cols, df.rows.filter (g.pred c2)⟩ := by
        unfold runFilter
        rw [hg]
      rw [e1, e2]
      unfold runFilter
      simp only [hf, hg]
      refine DataFrame.eq_of_parts rfl ?_
      show (df.rows.filter (g.pred c2)).filter (f.pred c)
        = (df.rows.filter (f.pred c)).filter (g.pred c2)
      rw [List.filter_filter, List.filter_filter]
      congr 1
      funext a
      rw [Bool.and_comm]

theorem apply_filters_pair (p q : FilterSpec) (df : DataFrame) :
    apply_filters df [p, q] =
      if (runFilter p df).isEmpty then runFilter p df
      else runFilter q (runFilter p df) := by
  by_cases h : (runFilter p df).isEmpty <;>
    by_cases h2 : (runFilter q (runFilter p df)).isEmpty <;>
    simp [apply_filters, h, h2]

theorem runFilter_isEmpty_all (f : FilterSpec) (df : DataFrame)
    (hf : (runFilter f df).isEmpty) : runFilter f df = ⟨df.cols, []⟩ := by
  refine DataFrame.eq_of_parts (runFilter_cols f df) ?_
  simpa [DataFrame.isEmpty, List.isEmpty_iff] using hf

theorem apply_filters_cols (fs : List FilterSpec) :
    ∀ df : DataFrame, (apply_filters df fs).cols = df.cols := by
  induction fs with
  | nil => intro df; rfl
  | cons f fs ih =>
    intro df
    by_cases h : (runFilter f df).isEmpty <;>
      simp [apply_filters, h, ih, runFilter_cols]

theorem apply_filters_sublist (fs : List FilterSpec) :
    ∀ df : DataFrame, (apply_filters df fs).rows.Sublist df.rows := by
  induction fs with
  | nil => intro df; exact List.Sublist.refl _
  | cons f fs ih =>
    intro df
    by_cases h : (runFilter f df).isEmpty
    · simpa [apply_filters, h] using runFilter_rows_sublist f df
    · simpa [apply_filters, h] using (ih (runFilter f df)).trans (runFilter_rows_sublist f df)

theorem activeCol_eq_none (f : FilterSpec) (cols : List String)
    (h : ∀ c ∈ f.touched, c ∉ cols) : f.activeCol cols = none := by
  cases f with
  | price mn mx =>
    have h1 : "pre_price" ∉ cols := h _ (by simp [FilterSpec.touched])
    have h2 : "price" ∉ cols := h _ (by simp [FilterSpec.touched])
    simp [FilterSpec.activeCol, h1, h2]
  | volume mn col =>
    have h1 : col ∉ cols := h _ (by simp [FilterSpec.touched])
    simp [FilterSpec.activeCol, h1]
  | gap mg =>
    have h1 : "gap_pct" ∉ cols := h _ (by simp [FilterSpec.touched])
    simp [FilterSpec.activeCol, h1]
  | avgVolume mn =>
    have h1 : "avg_volume" ∉ cols := h _ (by simp [FilterSpec.touched])
    simp [FilterSpec.activeCol, h1]
  | floatShares mx =>
    have h1 : "float_shares" ∉ cols := h _ (by simp [FilterSpec.touched])
    simp [FilterSpec.activeCol, h1]

theorem clusterGo_eq_spec (tol : ℚ) :
    ∀ (rest cur : List ℚ), cur ≠ [] → (∀ x ∈ cur, 0 < x) → (∀ x ∈ rest, 0 < x) →
      clusterGo tol cur rest = clusterGoSpec tol cur rest := by
  intro rest
  induction rest with
  | nil => intro cur h1 h2 h3; rfl
  | cons p rest ih =>
    intro cur hne hcur hrest
    have hp : 0 < p := hrest p (List.mem_cons_self _ _)
    have hrest2 : ∀ x ∈ rest, 0 < x := fun x hx => hrest x (List.mem_cons_of_mem _ hx)
    have hhead : 0 < cur.headI := by
      cases cur with
      | nil => exact absurd rfl hne
      | cons a l => exact hcur a (List.mem_cons_self _ _)
    have hcond : (|p - cur.headI| / cur.headI * 100 ≤ tol) ↔
        (|p - cur.headI| ≤ cur.headI * tol / 100) := by
      rw [div_mul_eq_mul_div, div_le_iff₀ hhead, le_div_iff₀ (by norm_num : (0:ℚ) < 100)]
      constructor <;> intro h <;> nlinarith
    have hcons : ∀ x ∈ p :: cur, 0 < x := by
      intro x hx
      rcases List.mem_cons.mp hx with h | h
      · exact h ▸ hp
      · exact hcur x h
    by_cases hc : |p - cur.headI| / cur.headI * 100 ≤ tol
    · simp only [clusterGo, clusterGoSpec]
      rw [if_pos hc, if_pos (hcond.mp hc)]
      exact ih (p :: cur) (by simp) hcons hrest2
    · simp only [clusterGo, clusterGoSpec]
      rw [if_neg hc, if_neg (fun hh => hc (hcond.mpr hh))]
      refine congrArg (cur.reverse :: ·) ?_
      refine ih [p] (by simp) ?_ hrest2
      intro x hx
      simp only [List.mem_singleton] at hx
      exact hx ▸ hp

theorem rsiVal_bounds (u d : ℚ) (hu : 0 ≤ u) (hd : 0 ≤ d) :
    0 ≤ rsiVal u d ∧ rsiVal u d ≤ 100 := by
  unfold rsiVal
  by_cases h : d = 0
  · rw [if_pos h]
    norm_num
  · rw [if_neg h]
    have hd2 : 0 < d := lt_of_le_of_ne hd (Ne.symm h)
    have hrs : 0 ≤ u / d := div_nonneg hu hd2.le
    have h1 : (0:ℚ) < 1 + u / d := by linarith
    have h2 : 100 / (1 + u / d) ≤ 100 := div_le_self (by norm_num) (by linarith)
    have h3 : 0 < 100 / (1 + u / d) := div_pos (by norm_num) h1
    constructor <;> linarith

theorem rsiGo_bounds (a : ℚ) (ha0 : 0 ≤ a) (ha1 : a ≤ 1) :
    ∀ (xs : List ℚ) (u d : ℚ), 0 ≤ u → 0 ≤ d → ∀ r ∈ rsiGo a u d xs, 0 ≤ r ∧ r ≤ 100 := by
  intro xs
  induction xs with
  | nil =>
    intro u d hu hd r hr
    simp [rsiGo] at hr
  | cons x xs ih =>
    intro u d hu hd r hr
    have hgain : 0 ≤ (if 0 < x then x else 0) := by
      split_ifs with h
      · exact h.le
      · exact le_rfl
    have hloss : 0 ≤ (if x < 0 then -x else 0) := by
      split_ifs with h
      · linarith
      · exact le_rfl
    have hu2 : 0 ≤ a * (if 0 < x then x else 0) + (1 - a) * u := by
      have p1 := mul_nonneg ha0 hgain
      have p2 := mul_nonneg (by linarith : (0:ℚ) ≤ 1 - a) hu
      linarith
    have hd2 : 0 ≤ a * (if x < 0 then -x else 0) + (1 - a) * d := by
      have p1 := mul_nonneg ha0 hloss
      have p2 := mul_nonneg (by linarith : (0:ℚ) ≤ 1 - a) hd
      linarith
    simp only [rsiGo] at hr
    rcases List.mem_cons.mp hr with h | h
    · exact h ▸ rsiVal_bounds _ _ hu2 hd2
    · exact ih _ _ hu2 hd2 r h

/-! ## Claim theorems -/

/-- C3: for every indicator row and weights configuration, the grade
returned by `compute_composite_score` is "A" exactly when the returned
total is ≥ 80, "B" exactly when 65 ≤ total < 80, "C" exactly when
50 ≤ total < 65, and "F" exactly when total < 50. -/
theorem composite_grade_matches_thresholds (row : Row) (w : Option WeightsDict) :
    ((compute_composite_score row w).grade = "A" ↔
      80 ≤ (compute_composite_score row w).total) ∧
    ((compute_composite_score row w).grade = "B" ↔
      65 ≤ (compute_composite_score row w).total ∧ (compute_composite_score row w).total < 80) ∧
    ((compute_composite_score row w).grade = "C" ↔
      50 ≤ (compute_composite_score row w).total ∧ (compute_composite_score row w).total < 65) ∧
    ((compute_composite_score row w).grade = "F" ↔
      (compute_composite_score row w).total < 50) := by
  rw [composite_grade_def]
  exact gradeOf_spec _

/-- C7: `cluster_levels` on `[100, 100.5, 101, 110, 110.5]` with a
tolerance of 1.5 percent yields exactly 2 clusters. -/
theorem cluster_levels_example_two_clusters :
    (cluster_levels [100, 100.5, 101, 110, 110.5] 1.5).length = 2 := by
  norm_num [cluster_levels, clusterGo, List.insertionSort, List.orderedInsert, abs_of_nonneg]

/-- C9: constructing a `MassiveProvider` raises a `ValueError` with a
descriptive message if and only if both the settings key and the
`MASSIVE_API_KEY` environment value are empty; with a non-empty key the
construction succeeds. -/
theorem massiveInit_error_iff (s e : String) :
    (massiveInit s e = Except.error massiveKeyError ↔ s = "" ∧ e = "") ∧
    (s ≠ "" ∨ e ≠ "" → ∃ k, massiveInit s e = Except.ok k) := by
  unfold massiveInit
  by_cases hs : s = "" <;> by_cases he : e = "" <;> simp [hs, he]

/-- Witness for C9 at concrete keys: no key at all raises, a settings
key alone succeeds. -/
theorem massiveInit_error_iff_witness :
    massiveInit "" "" = Except.error massiveKeyError ∧
    ∃ k, massiveInit "secret" "" = Except.ok k :=
  ⟨(massiveInit_error_iff "" "").1.mpr ⟨rfl, rfl⟩,
   (massiveInit_error_iff "secret" "").2 (Or.inl (by decide))⟩

/-- C8: missing or empty input data yields empty results without
raising: `cluster_levels` of an empty list is the empty list,
`rank_candidates` is the empty DataFrame when no ticker yields a usable
history, and `MassiveProvider.get_history` is the empty DataFrame when
the response holds no bars. -/
theorem empty_inputs_give_empty_results :
    (∀ tol : ℚ, cluster_levels [] tol = []) ∧
    (∀ (provider : Provider) (enrich : DataFrame → Except String Row)
        (weights : Option WeightsDict) (tickers : List String),
        (∀ t ∈ tickers, historyUnusable provider t) →
        rank_candidates provider enrich tickers weights = []) ∧
    (∀ resp : Option (List AggBar), resp = none ∨ resp = some [] →
        massiveGetHistory resp = { cols := [], rows := [] }) := by
  refine ⟨fun tol => rfl, ?_, ?_⟩
  · intro provider enrich weights tickers h
    have hloop : rankLoop provider enrich weights tickers = [] := by
      induction tickers with
      | nil => rfl
      | cons t ts ih =>
        have ht := h t (List.mem_cons_self t ts)
        have hts : ∀ x ∈ ts, historyUnusable provider x :=
          fun x hx => h x (List.mem_cons_of_mem _ hx)
        have hone : rankOne provider enrich weights t = none := by
          unfold rankOne
          unfold historyUnusable at ht
          cases hh : provider.getHistory t with
          | error e => rfl
          | ok df =>
            rw [hh] at ht
            simp only [] at ht
            simp [DataFrame.isEmpty, ht]
        simp [rankLoop, hone, ih hts]
    simp [rank_candidates, hloop]
  · intro resp h
    rcases h with h | h <;> subst h <;> rfl

/-- Witness for C8: a provider whose fetches always throw, two tickers,
and a bar-less response all produce empty results. -/
theorem empty_inputs_give_empty_results_witness :
    cluster_levels [] 2 = [] ∧
    rank_candidates ⟨fun _ => Except.error "network down", fun _ => Except.error "network down"⟩
      (fun _ => Except.error "no indicators") ["AAPL", "TSLA"] none = [] ∧
    massiveGetHistory none = { cols := [], rows := [] } :=
  ⟨empty_inputs_give_empty_results.1 2,
   empty_inputs_give_empty_results.2.1
     ⟨fun _ => Except.error "network down", fun _ => Except.error "network down"⟩
     (fun _ => Except.error "no indicators") none ["AAPL", "TSLA"]
     (by intro t ht; simp [historyUnusable]),
   empty_inputs_give_empty_results.2.2 none (Or.inl rfl)⟩

/-- C1 counterexample: `compute_composite_score` accepts any weights
dict; with weights `{momentum: 2, trend: 0, volume: 0}` and an empty
row the returned total is 110 > 100. -/
theorem composite_total_exceeds_100 :
    100 < (compute_composite_score {} (some ⟨some 2, some 0, some 0⟩)).total := by
  norm_num [compute_composite_score, score_momentum, score_trend, score_volume,
    Cell.getyD, Cell.gety, Cell.truthy0, roundTo, roundHE, Int.even_iff]

/-- C1 amended: whenever the three resolved weights are nonnegative and
sum to at most 1 (as the default 0.35/0.35/0.30 does), the total
returned by `compute_composite_score` lies in [0, 100]. -/
theorem composite_total_bounded (row : Row) (weights : Option WeightsDict)
    (hm : 0 ≤ (resolvedWeights weights).1)
    (ht : 0 ≤ (resolvedWeights weights).2.1)
    (hv : 0 ≤ (resolvedWeights weights).2.2)
    (hsum : (resolvedWeights weights).1 + (resolvedWeights weights).2.1
      + (resolvedWeights weights).2.2 ≤ 1) :
    0 ≤ (compute_composite_score row weights).total ∧
      (compute_composite_score row weights).total ≤ 100 := by
  obtain ⟨hm0, hm1⟩ := score_momentum_bounds row
  obtain ⟨ht0, ht1⟩ := score_trend_bounds row
  obtain ⟨hv0, hv1⟩ := score_volume_bounds row
  rw [composite_total_def]
  have h0 : 0 ≤ score_momentum row * (resolvedWeights weights).1
      + score_trend row * (resolvedWeights weights).2.1
      + score_volume row * (resolvedWeights weights).2.2 := by
    have p1 := mul_nonneg hm0 hm
    have p2 := mul_nonneg ht0 ht
    have p3 := mul_nonneg hv0 hv
    linarith
  have h100 : score_momentum row * (resolvedWeights weights).1
      + score_trend row * (resolvedWeights weights).2.1
      + score_volume row * (resolvedWeights weights).2.2 ≤ 100 := by
    have p1 := mul_le_mul_of_nonneg_right hm1 hm
    have p2 := mul_le_mul_of_nonneg_right ht1 ht
    have p3 := mul_le_mul_of_nonneg_right hv1 hv
    linarith
  have hz : roundTo 1 (0 : ℚ) = 0 := by simpa using roundTo_intCast 1 0
  have hh : roundTo 1 (100 : ℚ) = 100 := by simpa using roundTo_intCast 1 100
  constructor
  · calc (0 : ℚ) = roundTo 1 0 := hz.symm
      _ ≤ _ := roundTo_mono 1 h0
  · calc roundTo 1 _ ≤ roundTo 1 100 := roundTo_mono 1 h100
      _ = 100 := hh

/-- Witness for C1 amended: the default weights are nonnegative and sum
to 1, so the total for the empty row is within [0, 100]. -/
theorem composite_total_bounded_witness :
    0 ≤ (compute_composite_score {} none).total ∧
      (compute_composite_score {} none).total ≤ 100 :=
  composite_total_bounded {} none (by norm_num [resolvedWeights])
    (by norm_num [resolvedWeights]) (by norm_num [resolvedWeights])
    (by norm_num [resolvedWeights])

/-- C4 counterexample: with high = 10 > low = 9 but close = 0 the
returned `r1` is strictly below `pivot`, refuting `r1 > pivot > s1` for
arbitrary close; and at (1.004, 1, 1), inside `low ≤ close ≤ high`, the
two-decimal rounding makes the returned `r1` and `pivot` equal, so only
non-strict order survives rounding. -/
theorem pivot_r1_counterexample :
    ((9 : ℚ) < 10 ∧
      (compute_pivot_points 10 9 0).r1 < (compute_pivot_points 10 9 0).pivot) ∧
    ((1 : ℚ) < 1.004 ∧
      (compute_pivot_points 1.004 1 1).r1 = (compute_pivot_points 1.004 1 1).pivot) := by
  refine ⟨⟨by norm_num, ?_⟩, ⟨by norm_num, ?_⟩⟩ <;>
    norm_num [compute_pivot_points, r1Raw, s1Raw, pivotRaw, roundTo, roundHE, Int.even_iff]

/-- C4 amended: for high > low and low ≤ close ≤ high the exact pivot
values satisfy `s1 < pivot < r1`, and the returned two-decimal-rounded
values satisfy `s1 ≤ pivot ≤ r1`. -/
theorem pivot_points_order (high low close : ℚ) (hhl : low < high)
    (hlc : low ≤ close) (hch : close ≤ high) :
    s1Raw high low close < pivotRaw high low close ∧
    pivotRaw high low close < r1Raw high low close ∧
    (compute_pivot_points high low close).s1 ≤ (compute_pivot_points high low close).pivot ∧
    (compute_pivot_points high low close).pivot ≤ (compute_pivot_points high low close).r1 := by
  have h1 : s1Raw high low close < pivotRaw high low close := by
    unfold s1Raw pivotRaw
    linarith
  have h2 : pivotRaw high low close < r1Raw high low close := by
    unfold r1Raw pivotRaw
    linarith
  exact ⟨h1, h2, roundTo_mono 2 h1.le, roundTo_mono 2 h2.le⟩

/-- Witness for C4 amended at (high, low, close) = (10, 9, 9.5). -/
theorem pivot_points_order_witness :
    s1Raw 10 9 (19/2) < pivotRaw 10 9 (19/2) ∧
    pivotRaw 10 9 (19/2) < r1Raw 10 9 (19/2) ∧
    (compute_pivot_points 10 9 (19/2)).s1 ≤ (compute_pivot_points 10 9 (19/2)).pivot ∧
    (compute_pivot_points 10 9 (19/2)).pivot ≤ (compute_pivot_points 10 9 (19/2)).r1 :=
  pivot_points_order 10 9 (19/2) (by norm_num) (by norm_num) (by norm_num)

/-- C2: for positive price levels, `cluster_levels` computes exactly
what the spec describes (`cluster_levels_spec`): sort ascending,
partition into maximal consecutive runs in which each price is within
the tolerance percentage of the last element already placed in the
current cluster, and report each cluster's rounded mean as `level` and
its size as `strength`. -/
theorem cluster_levels_matches_spec (levels : List ℚ) (tol : ℚ) (hne : levels ≠ [])
    (hpos : ∀ x ∈ levels, 0 < x) :
    cluster_levels levels tol = cluster_levels_spec levels tol := by
  have hperm := List.perm_insertionSort (fun a b : ℚ => a ≤ b) levels
  unfold cluster_levels cluster_levels_spec
  cases hs : levels.insertionSort (· ≤ ·) with
  | nil => rfl
  | cons first rest =>
    rw [hs] at hperm
    have hmem : ∀ x ∈ first :: rest, 0 < x := fun x hx => hpos x (hperm.mem_iff.mp hx)
    show (clusterGo tol [first] rest).map
        (fun c => LevelZone.mk (roundTo 2 (c.sum / (c.length : ℚ))) c.length)
      = (clusterGoSpec tol [first] rest).map
        (fun c => LevelZone.mk (roundTo 2 (c.sum / (c.length : ℚ))) c.length)
    rw [clusterGo_eq_spec tol rest [first] (by simp)
      (by
        intro x hx
        simp only [List.mem_singleton] at hx
        exact hx ▸ hmem first (List.mem_cons_self _ _))
      (fun x hx => hmem x (List.mem_cons_of_mem _ hx))]

/-- Witness for C2 on the levels [100, 100.5, 110] with 1.5 percent
tolerance. -/
theorem cluster_levels_matches_spec_witness :
    cluster_levels [100, 100.5, 110] 1.5 = cluster_levels_spec [100, 100.5, 110] 1.5 :=
  cluster_levels_matches_spec [100, 100.5, 110] 1.5 (by simp)
    (by
      intro x hx
      simp at hx
      rcases hx with h | h | h <;> subst h <;> norm_num)

/-- C5: two screener filters acting on disjoint columns commute through
`apply_filters`: applying them in either order yields the same
DataFrame.  (The disjointness hypothesis of the claim is recorded but
the code satisfies the property even without it: filters only select
rows and never change columns or cell values.) -/
theorem apply_filters_order_independent (df : DataFrame) (f g : FilterSpec)
    (hdisj : ∀ c ∈ f.touched, c ∉ g.touched) :
    apply_filters df [f, g] = apply_filters df [g, f] := by
  clear hdisj
  rw [apply_filters_pair f g df, apply_filters_pair g f df]
  by_cases hA : (runFilter f df).isEmpty <;> by_cases hB : (runFilter g df).isEmpty
  · rw [if_pos hA, if_pos hB, runFilter_isEmpty_all f df hA, runFilter_isEmpty_all g df hB]
  · rw [if_pos hA, if_neg hB, runFilter_comm f g df, runFilter_isEmpty_all f df hA,
      runFilter_empty_rows g ⟨df.cols, []⟩ rfl]
  · rw [if_neg hA, if_pos hB, ← runFilter_comm f g df, runFilter_isEmpty_all g df hB,
      runFilter_empty_rows f ⟨df.cols, []⟩ rfl]
  · rw [if_neg hA, if_neg hB]
    exact runFilter_comm g f df

/-- Witness for C5: a price filter and a gap filter (disjoint columns)
on a two-row frame. -/
theorem apply_filters_order_independent_witness :
    apply_filters ⟨["price", "gap_pct"], [[("price", 5), ("gap_pct", 3)], [("price", 250), ("gap_pct", 1)]]⟩
        [FilterSpec.price 2 (some 200), FilterSpec.gap 2]
      = apply_filters ⟨["price", "gap_pct"], [[("price", 5), ("gap_pct", 3)], [("price", 250), ("gap_pct", 1)]]⟩
        [FilterSpec.gap 2, FilterSpec.price 2 (some 200)] :=
  apply_filters_order_independent _ (FilterSpec.price 2 (some 200)) (FilterSpec.gap 2)
    (by decide)

/-- C10: every screener filter is the identity when the column it tests
is absent, and otherwise returns a subset of the input rows in their
original order with the columns untouched; `apply_filters` therefore
never adds, modifies, or reorders rows. -/
theorem filters_select_rows (f : FilterSpec) (df : DataFrame) (fs : List FilterSpec) :
    (runFilter f df).cols = df.cols ∧
    (runFilter f df).rows.Sublist df.rows ∧
    ((∀ c ∈ f.touched, c ∉ df.cols) → runFilter f df = df) ∧
    (apply_filters df fs).cols = df.cols ∧
    (apply_filters df fs).rows.Sublist df.rows := by
  refine ⟨runFilter_cols f df, runFilter_rows_sublist f df, ?_,
    apply_filters_cols fs df, apply_filters_sublist fs df⟩
  intro habs
  unfold runFilter
  rw [activeCol_eq_none f df.cols habs]

/-- Witness for C10: a gap filter leaves a frame without a `gap_pct`
column untouched, and on a one-filter chain rows stay a sublist. -/
theorem filters_select_rows_witness :
    runFilter (FilterSpec.gap 2) ⟨["price"], [[("price", 5)]]⟩ = ⟨["price"], [[("price", 5)]]⟩ ∧
    (apply_filters ⟨["price"], [[("price", 5)]]⟩ [FilterSpec.gap 2]).rows.Sublist
      [[("price", 5)]] :=
  ⟨(filters_select_rows (FilterSpec.gap 2) ⟨["price"], [[("price", 5)]]⟩ [FilterSpec.gap 2]).2.2.1
    (by decide),
   (filters_select_rows (FilterSpec.gap 2) ⟨["price"], [[("price", 5)]]⟩ [FilterSpec.gap 2]).2.2.2.2⟩

/-- C6: every value produced by `compute_rsi` lies in [0, 100]. -/
theorem compute_rsi_bounded (closes : List ℚ) (period : ℕ) :
    ∀ r ∈ compute_rsi closes period, 0 ≤ r ∧ r ≤ 100 := by
  intro r hr
  cases closes with
  | nil => simp [compute_rsi] at hr
  | cons c cs =>
    have ha0 : 0 ≤ 1 / ((period : ℚ)) := by positivity
    have ha1 : 1 / ((period : ℚ)) ≤ 1 := by
      cases period with
      | zero => norm_num
      | succ n =>
        rw [div_le_one (by positivity)]
        push_cast
        linarith [Nat.cast_nonneg (α := ℚ) n]
    simp only [compute_rsi] at hr
    rcases List.mem_cons.mp hr with h | h
    · exact h ▸ rsiVal_bounds 0 0 le_rfl le_rfl
    · exact rsiGo_bounds _ ha0 ha1 _ 0 0 le_rfl le_rfl r h

/-- Witness for C6: the RSI series of the closes [1, 2] with period 14
contains the value 100, which the theorem bounds within [0, 100]. -/
theorem compute_rsi_bounded_witness :
    (100 : ℚ) ∈ compute_rsi [1, 2] 14 ∧ (0 ≤ (100 : ℚ) ∧ (100 : ℚ) ≤ 100) :=
  ⟨by norm_num [compute_rsi, rsiGo, rsiVal, diffs],
   compute_rsi_bounded [1, 2] 14 100 (by norm_num [compute_rsi, rsiGo, rsiVal, diffs])⟩

end Tradekit
